import Mathlib

/-
Shallow embedding of the membership-expiry bot in src/main.py.

The persistent state is modelled by `DB` (the two SQLite tables `members`
and `expulsions`), the process-wide mutable dictionary `bot_status` by
`BotStatus`.  Timestamps are exact rationals (seconds); Python's `int()`
truncation toward zero is `pyInt`.  Calls against the Telegram platform
are replaced by an outcome oracle (`PlatformOutcome`) plus an explicit
trace of issued calls (`PlatformCall`), so that the pure transition
functions mirror the source's control flow exactly.
-/

namespace Bot14

/-- Row of the `members` table created by `init_db`:
user_id, chat_id, join_date, username, first_name with
PRIMARY KEY (user_id, chat_id). -/
structure MemberRow where
  user_id : Int
  chat_id : Int
  join_date : ℚ
  username : Option String
  first_name : String
deriving DecidableEq

/-- Row of the `expulsions` table created by `init_db`. -/
structure ExpulsionRow where
  user_id : Int
  chat_id : Int
  username : Option String
  first_name : String
  expelled_date : ℚ
  time_in_group_seconds : Int
deriving DecidableEq

/-- The two persisted tables of members.db. -/
structure DB where
  members : List MemberRow
  expulsions : List ExpulsionRow
deriving DecidableEq

/-- The global `bot_status` dictionary (process-wide, in-memory). -/
structure BotStatus where
  running : Bool
  last_check : Option ℚ
  members_count : Nat
  admin_notified : Bool
  errors : List String
  webhook_set : Bool
  last_webhook_update : Option ℚ
  next_check : Option ℚ
  auto_check_running : Bool
  total_expelled : Nat
  webhook_events_received : Nat
  members_detected : Nat
deriving DecidableEq

/-- Initial value of `bot_status` at module load. -/
def initialBotStatus : BotStatus :=
  ⟨false, none, 0, false, [], false, none, none, false, 0, 0, 0⟩

/-- Default ADMIN_CHAT_ID from the source (env default "5286685895"). -/
def ADMIN_CHAT_ID : Int := 5286685895

/-- Outcome oracle for one `expel_old_user` call's platform interactions:
`perm_check = none` models `get_chat_member` raising (swallowed),
`perm_check = some b` models it returning `can_restrict_members = b`;
`ban_ok` / `unban_ok` tell whether `ban_chat_member` / `unban_chat_member`
raise; `notify_ok` whether the admin notification send raises (swallowed). -/
structure PlatformOutcome where
  perm_check : Option Bool
  ban_ok : Bool
  unban_ok : Bool
  notify_ok : Bool
deriving DecidableEq

/-- One call issued against the Telegram platform. -/
inductive PlatformCall where
  | getChatMember (chat_id : Int)
  | banChatMember (chat_id user_id : Int)
  | unbanChatMember (chat_id user_id : Int)
  | sendMessage (target : Int)
deriving DecidableEq

/-- Does a row match the composite key (user_id, chat_id)? -/
def keyMatches (u c : Int) (r : MemberRow) : Bool :=
  r.user_id == u && r.chat_id == c

/-- SQL `DELETE FROM members WHERE user_id = ? AND chat_id = ?`. -/
def deleteMember (t : List MemberRow) (u c : Int) : List MemberRow :=
  t.filter (fun r => !(keyMatches u c r))

/-- SQL `INSERT OR REPLACE INTO members ...` under the
PRIMARY KEY (user_id, chat_id): any conflicting row is replaced. -/
def upsertMember (t : List MemberRow) (r : MemberRow) : List MemberRow :=
  r :: deleteMember t r.user_id r.chat_id

/-- Number of rows in the table for the key (u, c). -/
def countKey (t : List MemberRow) (u c : Int) : Nat :=
  (t.filter (keyMatches u c)).length

/-- Whether the table holds some row for the key (u, c). -/
def containsKey (t : List MemberRow) (u c : Int) : Bool :=
  t.any (keyMatches u c)

/-- Python `int()` on an exact number: truncation toward zero. -/
def pyInt (x : ℚ) : Int :=
  if 0 ≤ x then x.floor else x.ceil

/-- The `is_new_member` classification chain of `handle_chat_member_update`.
`old_member` is the status of `old_chat_member` (`none` when absent, in
which case the source sets `old_status = "unknown"`).  The three `if`
branches mirror Caso 1/2/3 of the source. -/
def isNewMember (old_member : Option String) (new_status : String) : Bool :=
  let old_status := old_member.getD "unknown"
  if (old_status == "left" || old_status == "kicked" || old_status == "unknown")
      && new_status == "member" then true
  else if old_status == "left" && new_status == "member" then true
  else if old_member == none && new_status == "member" then true
  else false

/-- The leave branch guard of `handle_chat_member_update`:
`old_status == "member" and new_status in ["left", "kicked"]`. -/
def isLeaveEvent (old_member : Option String) (new_status : String) : Bool :=
  let old_status := old_member.getD "unknown"
  old_status == "member" && (new_status == "left" || new_status == "kicked")

/-- Effect of `handle_chat_member_update` on the members table: on a join
it upserts the row with `join_date = now`; on a leave it deletes the row;
any other transition is a no-op. -/
def handle_chat_member_update (old_member : Option String) (new_status : String)
    (user_id chat_id : Int) (now : ℚ) (username : Option String) (first_name : String)
    (db : DB) : DB :=
  if isNewMember old_member new_status then
    { db with members :=
        upsertMember db.members ⟨user_id, chat_id, now, username, first_name⟩ }
  else if isLeaveEvent old_member new_status then
    { db with members := deleteMember db.members user_id chat_id }
  else db

/-- Append one entry to `bot_status["errors"]`. -/
def appendError (st : BotStatus) (e : String) : BotStatus :=
  { st with errors := st.errors ++ [e] }

/-- Error string recorded by the `except` clause of `expel_old_user`. -/
def expelErrorMsg (user_id : Int) : String :=
  "Error expulsando " ++ toString user_id

/-- Result of one `expel_old_user` call: the returned boolean, the updated
tables and status, and the trace of platform calls issued. -/
structure ExpelResult where
  success : Bool
  db : DB
  st : BotStatus
  trace : List PlatformCall
deriving DecidableEq

/-- `expel_old_user(user_id, chat_id, time_limit, username, first_name,
time_in_group)`: permission pre-check (advisory; a raised check is
swallowed, a negative one returns False), then `ban_chat_member` followed
by `unban_chat_member` (any raise is caught, logged into errors and False
returned), then the member row is deleted, one expulsion row appended with
`int(time_in_group)`, `total_expelled` incremented, and the admin
best-effort notified. -/
def expel_old_user (p : PlatformOutcome) (expelled_date : ℚ)
    (user_id chat_id : Int) (time_limit : ℚ) (username : Option String)
    (first_name : String) (time_in_group : ℚ) (db : DB) (st : BotStatus) :
    ExpelResult :=
  let t0 : List PlatformCall := [PlatformCall.getChatMember chat_id]
  match p.perm_check with
  | some false => ⟨false, db, st, t0⟩
  | _ =>
    let t1 := t0 ++ [PlatformCall.banChatMember chat_id user_id]
    if !p.ban_ok then
      ⟨false, db, appendError st (expelErrorMsg user_id), t1⟩
    else
      let t2 := t1 ++ [PlatformCall.unbanChatMember chat_id user_id]
      if !p.unban_ok then
        ⟨false, db, appendError st (expelErrorMsg user_id), t2⟩
      else
        let db2 : DB :=
          ⟨deleteMember db.members user_id chat_id,
           db.expulsions ++
             [⟨user_id, chat_id, username, first_name, expelled_date,
               pyInt time_in_group⟩]⟩
        let st2 := { st with total_expelled := st.total_expelled + 1 }
        let t3 := if st.admin_notified then
            t2 ++ [PlatformCall.sendMessage ADMIN_CHAT_ID] else t2
        ⟨true, db2, st2, t3⟩

/-- Did all platform steps of an expel attempt go through (check not
negative, ban and unban both succeeded)? -/
def expelSucceeds (p : PlatformOutcome) : Bool :=
  p.perm_check != some false && p.ban_ok && p.unban_ok

/-- Result of one sweep: final tables and status, the rows handed to the
executor, and the count of successful expulsions. -/
structure SweepResult where
  db : DB
  st : BotStatus
  attempted : List MemberRow
  expelled_count : Nat
deriving DecidableEq

/-- The `for` loop of `check_old_members_async` over the snapshot of rows
read at sweep start: each row's `seconds_in_group = now - join_date` is
compared with the time limit, and overdue rows are handed synchronously to
`expel_old_user`. -/
def checkLoop (now time_limit : ℚ) (oracle : MemberRow → PlatformOutcome)
    (edate : MemberRow → ℚ) :
    List MemberRow → DB → BotStatus → List MemberRow → Nat → SweepResult
  | [], db, st, att, n => ⟨db, st, att, n⟩
  | r :: rest, db, st, att, n =>
    let seconds_in_group := now - r.join_date
    if time_limit ≤ seconds_in_group then
      let res := expel_old_user (oracle r) (edate r) r.user_id r.chat_id
        time_limit r.username r.first_name seconds_in_group db st
      checkLoop now time_limit oracle edate rest res.db res.st (att ++ [r])
        (if res.success then n + 1 else n)
    else
      checkLoop now time_limit oracle edate rest db st att n

/-- `check_old_members_async`: reads all member rows once, updates
`last_check` and `members_count`, then runs the loop.  `oracle` gives each
attempted expulsion's platform outcome and `edate` the instant at which
`expelled_date` is captured inside `expel_old_user` (a later instant than
`now`, which is read once at sweep start). -/
def check_old_members_async (now time_limit : ℚ)
    (oracle : MemberRow → PlatformOutcome) (edate : MemberRow → ℚ)
    (db : DB) (st : BotStatus) : SweepResult :=
  let rows := db.members
  let st1 := { st with last_check := some now, members_count := rows.length }
  checkLoop now time_limit oracle edate rows db st1 [] 0

/-- `start_command`: arms admin notifications when the sender is the
configured admin, otherwise only replies with a generic text. -/
def start_command (admin_chat_id user_id : Int) (st : BotStatus) : BotStatus :=
  if user_id = admin_chat_id then { st with admin_notified := true } else st

/-- The `errors` field of the `/status` JSON: `bot_status["errors"][-10:]`. -/
def status_errors (st : BotStatus) : List String :=
  st.errors.drop (st.errors.length - 10)

/-- One state-changing operation of the system: an ingestor event, a direct
executor call, or a whole sweep. -/
inductive Op where
  | memberUpdate (old_member : Option String) (new_status : String)
      (user_id chat_id : Int) (now : ℚ) (username : Option String)
      (first_name : String)
  | expelCall (p : PlatformOutcome) (expelled_date : ℚ) (user_id chat_id : Int)
      (time_limit : ℚ) (username : Option String) (first_name : String)
      (time_in_group : ℚ)
  | sweep (now time_limit : ℚ) (oracle : MemberRow → PlatformOutcome)
      (edate : MemberRow → ℚ)

/-- Apply one operation to the persisted tables and the status dict. -/
def applyOp (s : DB × BotStatus) : Op → DB × BotStatus
  | Op.memberUpdate om ns u c t un fn =>
    (handle_chat_member_update om ns u c t un fn s.1, s.2)
  | Op.expelCall p ed u c tl un fn tig =>
    let r := expel_old_user p ed u c tl un fn tig s.1 s.2
    (r.db, r.st)
  | Op.sweep now tl oracle edate =>
    let r := check_old_members_async now tl oracle edate s.1 s.2
    (r.db, r.st)

/-- Apply a sequence of operations left to right. -/
def applyOps (s : DB × BotStatus) (ops : List Op) : DB × BotStatus :=
  ops.foldl applyOp s

/-- One event addressed to a fixed (user_id, chat_id) key: a membership
update processed by `handle_chat_member_update`, or an `expel_old_user`
attempt for that key. -/
inductive KeyOp where
  | upd (old_member : Option String) (new_status : String) (now : ℚ)
      (username : Option String) (first_name : String)
  | expelAttempt (p : PlatformOutcome) (expelled_date time_limit time_in_group : ℚ)
      (username : Option String) (first_name : String)

/-- Apply one key-addressed event for the key (u, c). -/
def applyKeyOp (u c : Int) (s : DB × BotStatus) : KeyOp → DB × BotStatus
  | KeyOp.upd om ns t un fn =>
    (handle_chat_member_update om ns u c t un fn s.1, s.2)
  | KeyOp.expelAttempt p ed tl tig un fn =>
    let r := expel_old_user p ed u c tl un fn tig s.1 s.2
    (r.db, r.st)

/-- Replay a sequence of key-addressed events. -/
def applyKeyOps (u c : Int) (s : DB × BotStatus) (evs : List KeyOp) :
    DB × BotStatus :=
  evs.foldl (applyKeyOp u c) s

/-- Relevant events of the spec sentence: JOIN-classified updates,
LEAVE-classified updates, and successful expulsions. -/
def relevantKeyOp : KeyOp → Bool
  | KeyOp.upd om ns _ _ _ => isNewMember om ns || isLeaveEvent om ns
  | KeyOp.expelAttempt p _ _ _ _ _ => expelSucceeds p

/-- Is a key-addressed event a JOIN? -/
def isJoinKeyOp : KeyOp → Bool
  | KeyOp.upd om ns _ _ _ => isNewMember om ns
  | KeyOp.expelAttempt _ _ _ _ _ _ => false

/-- Modelled from the spec's words for claim C1: the store contains a row
for the key after replay iff the last relevant event (JOIN, LEAVE or
successful expulsion) was a JOIN. -/
def specRowPresent (evs : List KeyOp) : Bool :=
  match (evs.filter relevantKeyOp).getLast? with
  | some e => isJoinKeyOp e
  | none => false

/-- Closed form of `expel_old_user` by cases on the platform outcome. -/
theorem expel_old_user_eq (p : PlatformOutcome) (ed : ℚ) (u c : Int) (tl : ℚ)
    (un : Option String) (fn : String) (tig : ℚ) (db : DB) (st : BotStatus) :
    expel_old_user p ed u c tl un fn tig db st =
      if expelSucceeds p then
        ⟨true,
         ⟨deleteMember db.members u c,
          db.expulsions ++ [⟨u, c, un, fn, ed, pyInt tig⟩]⟩,
         { st with total_expelled := st.total_expelled + 1 },
         [PlatformCall.getChatMember c, PlatformCall.banChatMember c u,
          PlatformCall.unbanChatMember c u]
           ++ (if st.admin_notified then [PlatformCall.sendMessage ADMIN_CHAT_ID]
               else [])⟩
      else if p.perm_check = some false then
        ⟨false, db, st, [PlatformCall.getChatMember c]⟩
      else if p.ban_ok = false then
        ⟨false, db, appendError st (expelErrorMsg u),
         [PlatformCall.getChatMember c, PlatformCall.banChatMember c u]⟩
      else
        ⟨false, db, appendError st (expelErrorMsg u),
         [PlatformCall.getChatMember c, PlatformCall.banChatMember c u,
          PlatformCall.unbanChatMember c u]⟩ := by
  obtain ⟨pc, b, ub, nt⟩ := p
  rcases pc with _ | b' <;> [skip; rcases b' with _ | _] <;>
    cases b <;> cases ub <;> cases hadm : st.admin_notified <;>
    simp [expel_old_user, expelSucceeds, hadm]

/-- The boolean returned by `expel_old_user` is exactly `expelSucceeds`. -/
theorem expel_success_eq (p : PlatformOutcome) (ed : ℚ) (u c : Int) (tl : ℚ)
    (un : Option String) (fn : String) (tig : ℚ) (db : DB) (st : BotStatus) :
    (expel_old_user p ed u c tl un fn tig db st).success = expelSucceeds p := by
  rw [expel_old_user_eq]
  cases hs : expelSucceeds p
  · simp only [Bool.false_eq_true, if_false]
    split
    · rfl
    · split <;> rfl
  · simp only [if_true]

/-- A failed expel attempt leaves both tables untouched. -/
theorem expel_failure_db (p : PlatformOutcome) (ed : ℚ) (u c : Int) (tl : ℚ)
    (un : Option String) (fn : String) (tig : ℚ) (db : DB) (st : BotStatus)
    (h : expelSucceeds p = false) :
    (expel_old_user p ed u c tl un fn tig db st).db = db := by
  rw [expel_old_user_eq, h]
  simp only [Bool.false_eq_true, if_false]
  split <;> [rfl; split <;> rfl]

/-- The members table after `expel_old_user`. -/
theorem expel_members_eq (p : PlatformOutcome) (ed : ℚ) (u c : Int) (tl : ℚ)
    (un : Option String) (fn : String) (tig : ℚ) (db : DB) (st : BotStatus) :
    (expel_old_user p ed u c tl un fn tig db st).db.members =
      if expelSucceeds p then deleteMember db.members u c else db.members := by
  rw [expel_old_user_eq]
  by_cases h : expelSucceeds p = true
  · simp [h]
  · simp only [h, Bool.false_eq_true, if_false]
    split <;> [rfl; split <;> rfl]

/-- The expulsions table after `expel_old_user`. -/
theorem expel_expulsions_eq (p : PlatformOutcome) (ed : ℚ) (u c : Int) (tl : ℚ)
    (un : Option String) (fn : String) (tig : ℚ) (db : DB) (st : BotStatus) :
    (expel_old_user p ed u c tl un fn tig db st).db.expulsions =
      if expelSucceeds p then
        db.expulsions ++ [⟨u, c, un, fn, ed, pyInt tig⟩]
      else db.expulsions := by
  rw [expel_old_user_eq]
  by_cases h : expelSucceeds p = true
  · simp [h]
  · simp only [h, Bool.false_eq_true, if_false]
    split <;> [rfl; split <;> rfl]

/-- Deleting a key removes every row for that key. -/
theorem countKey_deleteMember_self (t : List MemberRow) (u c : Int) :
    countKey (deleteMember t u c) u c = 0 := by
  simp only [countKey, deleteMember, List.length_eq_zero, List.filter_filter]
  simp [List.filter_eq_nil_iff]

/-- Deleting any key never increases the number of rows for a key. -/
theorem countKey_deleteMember_le (t : List MemberRow) (u' c' u c : Int) :
    countKey (deleteMember t u' c') u c ≤ countKey t u c := by
  have h : List.Sublist (deleteMember t u' c') t := List.filter_sublist t
  exact (h.filter (keyMatches u c)).length_le

/-- Upserting a row leaves exactly one row for its own key. -/
theorem countKey_upsertMember_self (t : List MemberRow) (r : MemberRow) :
    countKey (upsertMember t r) r.user_id r.chat_id = 1 := by
  have h0 := countKey_deleteMember_self t r.user_id r.chat_id
  simp only [countKey, upsertMember] at h0 ⊢
  rw [List.filter_cons_of_pos]
  · simp [h0]
  · simp [keyMatches]

/-- Upserting a row does not touch rows of a different key. -/
theorem countKey_upsertMember_le (t : List MemberRow) (r : MemberRow) (u c : Int) :
    countKey (upsertMember t r) u c ≤ max 1 (countKey t u c) := by
  by_cases hk : keyMatches u c r = true
  · have hu : r.user_id = u ∧ r.chat_id = c := by
      simpa [keyMatches, Bool.and_eq_true, beq_iff_eq] using hk
    rw [← hu.1, ← hu.2, countKey_upsertMember_self]
    exact le_max_left _ _
  · calc countKey (upsertMember t r) u c
        = countKey (deleteMember t r.user_id r.chat_id) u c := by
          simp [countKey, upsertMember, List.filter_cons, hk]
      _ ≤ countKey t u c := countKey_deleteMember_le t _ _ u c
      _ ≤ max 1 (countKey t u c) := le_max_right _ _

/-- An upserted key is present afterwards. -/
theorem containsKey_upsertMember_self (t : List MemberRow) (r : MemberRow) :
    containsKey (upsertMember t r) r.user_id r.chat_id = true := by
  simp [containsKey, upsertMember, keyMatches]

/-- A deleted key is absent afterwards. -/
theorem containsKey_deleteMember_self (t : List MemberRow) (u c : Int) :
    containsKey (deleteMember t u c) u c = false := by
  unfold containsKey
  rw [List.any_eq_false]
  intro x hx
  rcases List.mem_filter.mp hx with ⟨-, hpx⟩
  simpa using hpx

/-- Presence of a key after one ingestor event addressed to that key. -/
theorem containsKey_handle (om : Option String) (ns : String) (u c : Int)
    (now : ℚ) (un : Option String) (fn : String) (db : DB) :
    containsKey (handle_chat_member_update om ns u c now un fn db).members u c =
      if isNewMember om ns then true
      else if isLeaveEvent om ns then false
      else containsKey db.members u c := by
  unfold handle_chat_member_update
  by_cases h1 : isNewMember om ns = true
  · simpa [h1] using containsKey_upsertMember_self db.members ⟨u, c, now, un, fn⟩
  · by_cases h2 : isLeaveEvent om ns = true
    · simpa [h1, h2] using containsKey_deleteMember_self db.members u c
    · simp [h1, h2]

/-- Presence of the key after one key-addressed event. -/
theorem containsKey_applyKeyOp (u c : Int) (s : DB × BotStatus) (e : KeyOp) :
    containsKey (applyKeyOp u c s e).1.members u c =
      if relevantKeyOp e then isJoinKeyOp e
      else containsKey s.1.members u c := by
  cases e with
  | upd om ns t un fn =>
    show containsKey (handle_chat_member_update om ns u c t un fn s.1).members u c = _
    rw [containsKey_handle]
    by_cases h1 : isNewMember om ns = true <;>
      by_cases h2 : isLeaveEvent om ns = true <;>
      simp [relevantKeyOp, isJoinKeyOp, h1, h2]
  | expelAttempt p ed tl tig un fn =>
    show containsKey (expel_old_user p ed u c tl un fn tig s.1 s.2).db.members u c = _
    rw [expel_members_eq]
    cases hs : expelSucceeds p
    · simp [relevantKeyOp, hs]
    · simp [relevantKeyOp, isJoinKeyOp, hs, containsKey_deleteMember_self]

/-- Presence of the key after replaying key-addressed events from any start
state: decided by the last relevant event when one exists. -/
theorem containsKey_applyKeyOps (u c : Int) (s : DB × BotStatus)
    (evs : List KeyOp) :
    containsKey (applyKeyOps u c s evs).1.members u c =
      match (evs.filter relevantKeyOp).getLast? with
      | some e => isJoinKeyOp e
      | none => containsKey s.1.members u c := by
  induction evs using List.reverseRecOn with
  | nil => rfl
  | append_singleton evs e ih =>
    have happ : applyKeyOps u c s (evs ++ [e])
        = applyKeyOp u c (applyKeyOps u c s evs) e := by
      simp [applyKeyOps, List.foldl_append]
    rw [happ, containsKey_applyKeyOp, ih, List.filter_append]
    cases hrel : relevantKeyOp e
    · have h1 : List.filter relevantKeyOp [e] = [] := by simp [hrel]
      rw [h1, List.append_nil]
      rfl
    · have h1 : List.filter relevantKeyOp [e] = [e] := by simp [hrel]
      rw [h1, List.getLast?_concat]
      rfl

/-- C1: for every sequence of JOIN and LEAVE events applied to the same
(user_id, room_id) key via `handle_chat_member_update`, together with any
expulsion attempts for that key, the members table after replay from the
empty store contains a row for the key iff the last relevant event (a
JOIN, a LEAVE, or a successful expulsion) was a JOIN not yet followed by
a LEAVE or a successful expulsion. -/
theorem membership_replay_presence (u c : Int) (st : BotStatus)
    (evs : List KeyOp) :
    containsKey (applyKeyOps u c (⟨[], []⟩, st) evs).1.members u c
      = specRowPresent evs := by
  rw [containsKey_applyKeyOps]
  unfold specRowPresent
  cases (evs.filter relevantKeyOp).getLast? <;> simp [containsKey]

/-- Deleting a key twice is the same as deleting it once. -/
theorem deleteMember_idem (t : List MemberRow) (u c : Int) :
    deleteMember (deleteMember t u c) u c = deleteMember t u c := by
  unfold deleteMember
  rw [List.filter_filter]
  congr 1
  funext x
  exact Bool.and_self _

/-- Deleting the key of a freshly upserted row reaches the same table as
deleting it from the original table. -/
theorem deleteMember_upsertMember (t : List MemberRow) (r : MemberRow) :
    deleteMember (upsertMember t r) r.user_id r.chat_id
      = deleteMember t r.user_id r.chat_id := by
  show deleteMember (r :: deleteMember t r.user_id r.chat_id) r.user_id r.chat_id
      = deleteMember t r.user_id r.chat_id
  unfold deleteMember
  rw [List.filter_cons_of_neg]
  · exact deleteMember_idem t r.user_id r.chat_id
  · simp [keyMatches]

/-- An earlier upsert for the same key is absorbed by a later one. -/
theorem upsertMember_absorb (t : List MemberRow) (r1 r2 : MemberRow)
    (hu : r1.user_id = r2.user_id) (hc : r1.chat_id = r2.chat_id) :
    upsertMember (upsertMember t r1) r2 = upsertMember t r2 := by
  have h : deleteMember (upsertMember t r1) r2.user_id r2.chat_id
      = deleteMember t r2.user_id r2.chat_id := by
    rw [← hu, ← hc, deleteMember_upsertMember]
  show r2 :: deleteMember (upsertMember t r1) r2.user_id r2.chat_id
      = r2 :: deleteMember t r2.user_id r2.chat_id
  rw [h]

/-- C3: applying the same JOIN event twice through
`handle_chat_member_update` (observed at `t1`, then at `t2`) yields the
same members-table state as applying it once at the latest observation:
the key's row has `join_date = t2` and exactly one row exists for the key
(no duplicate is created). -/
theorem join_event_idempotent (om : Option String) (ns : String)
    (h : isNewMember om ns = true) (u c : Int) (t1 t2 : ℚ)
    (un : Option String) (fn : String) (db : DB) :
    handle_chat_member_update om ns u c t2 un fn
        (handle_chat_member_update om ns u c t1 un fn db)
      = handle_chat_member_update om ns u c t2 un fn db
    ∧ countKey (handle_chat_member_update om ns u c t2 un fn
        (handle_chat_member_update om ns u c t1 un fn db)).members u c = 1
    ∧ (handle_chat_member_update om ns u c t2 un fn
        (handle_chat_member_update om ns u c t1 un fn db)).members.find?
          (keyMatches u c) = some ⟨u, c, t2, un, fn⟩ := by
  simp only [handle_chat_member_update, h, if_true]
  have habs := upsertMember_absorb db.members
    (⟨u, c, t1, un, fn⟩ : MemberRow) (⟨u, c, t2, un, fn⟩ : MemberRow) rfl rfl
  refine ⟨by rw [habs], ?_, ?_⟩
  · rw [habs]
    exact countKey_upsertMember_self db.members ⟨u, c, t2, un, fn⟩
  · rw [habs]
    exact List.find?_cons_of_pos _ (by simp [keyMatches])

/-- Witness for `join_event_idempotent`: the JOIN of user 3 into chat 9
replayed at t=0 and t=50 on the empty store. -/
theorem join_event_idempotent_witness :
    isNewMember (some "left") "member" = true
    ∧ (handle_chat_member_update (some "left") "member" 3 9 50 none "n"
          (handle_chat_member_update (some "left") "member" 3 9 0 none "n"
            ⟨[], []⟩)
        = handle_chat_member_update (some "left") "member" 3 9 50 none "n"
            ⟨[], []⟩
      ∧ countKey (handle_chat_member_update (some "left") "member" 3 9 50 none "n"
          (handle_chat_member_update (some "left") "member" 3 9 0 none "n"
            ⟨[], []⟩)).members 3 9 = 1
      ∧ (handle_chat_member_update (some "left") "member" 3 9 50 none "n"
          (handle_chat_member_update (some "left") "member" 3 9 0 none "n"
            ⟨[], []⟩)).members.find? (keyMatches 3 9)
          = some ⟨3, 9, 50, none, "n"⟩) :=
  ⟨by decide,
   join_event_idempotent (some "left") "member" (by decide) 3 9 0 50 none "n"
     ⟨[], []⟩⟩

/-- Upserting preserves the at-most-one-row bound for every key. -/
theorem atMostOne_upsertMember {t : List MemberRow}
    (h : ∀ u c, countKey t u c ≤ 1) (r : MemberRow) :
    ∀ u c, countKey (upsertMember t r) u c ≤ 1 := fun u c =>
  (countKey_upsertMember_le t r u c).trans (max_le le_rfl (h u c))

/-- Deleting preserves the at-most-one-row bound for every key. -/
theorem atMostOne_deleteMember {t : List MemberRow}
    (h : ∀ u c, countKey t u c ≤ 1) (u' c' : Int) :
    ∀ u c, countKey (deleteMember t u' c') u c ≤ 1 := fun u c =>
  (countKey_deleteMember_le t u' c' u c).trans (h u c)

/-- The ingestor preserves the at-most-one-row bound. -/
theorem atMostOne_handle (om : Option String) (ns : String)
    (u' c' : Int) (now : ℚ) (un : Option String) (fn : String) {db : DB}
    (h : ∀ u c, countKey db.members u c ≤ 1) :
    ∀ u c, countKey
      (handle_chat_member_update om ns u' c' now un fn db).members u c ≤ 1 := by
  unfold handle_chat_member_update
  split
  · exact atMostOne_upsertMember h _
  · split
    · exact atMostOne_deleteMember h u' c'
    · exact h

/-- The executor preserves the at-most-one-row bound. -/
theorem atMostOne_expel (p : PlatformOutcome) (ed : ℚ) (u' c' : Int)
    (tl : ℚ) (un : Option String) (fn : String) (tig : ℚ) {db : DB}
    (st : BotStatus) (h : ∀ u c, countKey db.members u c ≤ 1) :
    ∀ u c, countKey
      (expel_old_user p ed u' c' tl un fn tig db st).db.members u c ≤ 1 := by
  intro u c
  rw [expel_members_eq]
  split
  · exact atMostOne_deleteMember h u' c' u c
  · exact h u c

/-- The sweep loop preserves the at-most-one-row bound. -/
theorem atMostOne_checkLoop (now tl : ℚ)
    (oracle : MemberRow → PlatformOutcome) (edate : MemberRow → ℚ)
    (rows : List MemberRow) :
    ∀ db st att n, (∀ u c, countKey db.members u c ≤ 1) →
      ∀ u c, countKey
        (checkLoop now tl oracle edate rows db st att n).db.members u c ≤ 1 := by
  induction rows with
  | nil => intro db st att n h; exact h
  | cons r rest ih =>
    intro db st att n h
    dsimp only [checkLoop]
    split
    · exact ih _ _ _ _ (atMostOne_expel _ _ _ _ _ _ _ _ _ h)
    · exact ih _ _ _ _ h

/-- Every single operation preserves the at-most-one-row bound. -/
theorem atMostOne_applyOp (s : DB × BotStatus) (o : Op)
    (h : ∀ u c, countKey s.1.members u c ≤ 1) :
    ∀ u c, countKey (applyOp s o).1.members u c ≤ 1 := by
  cases o with
  | memberUpdate om ns u' c' t un fn => exact atMostOne_handle om ns u' c' t un fn h
  | expelCall p ed u' c' tl un fn tig => exact atMostOne_expel p ed u' c' tl un fn tig s.2 h
  | sweep now tl oracle edate =>
    exact atMostOne_checkLoop now tl oracle edate s.1.members s.1 _ [] 0 h

/-- Replaying any operation sequence preserves the at-most-one-row bound. -/
theorem atMostOne_applyOps (ops : List Op) :
    ∀ s : DB × BotStatus, (∀ u c, countKey s.1.members u c ≤ 1) →
      ∀ u c, countKey (applyOps s ops).1.members u c ≤ 1 := by
  induction ops with
  | nil => intro s h; exact h
  | cons o rest ih =>
    intro s h
    exact ih (applyOp s o) (atMostOne_applyOp s o h)

/-- C4: after any sequence of ingestor events, direct executor calls and
sweeps starting from the empty store created by `init_db`, the members
table never holds more than one row for any (user_id, chat_id) pair. -/
theorem at_most_one_row_invariant (ops : List Op) (st : BotStatus)
    (u c : Int) :
    countKey (applyOps (⟨[], []⟩, st) ops).1.members u c ≤ 1 := by
  refine atMostOne_applyOps ops _ (fun u' c' => ?_) u c
  simp [countKey]

/-- The rows a sweep hands to the executor are exactly the overdue rows of
the snapshot, in scan order. -/
theorem checkLoop_attempted (now tl : ℚ) (oracle : MemberRow → PlatformOutcome)
    (edate : MemberRow → ℚ) (rows : List MemberRow) :
    ∀ db st att n,
      (checkLoop now tl oracle edate rows db st att n).attempted
        = att ++ rows.filter (fun r => decide (tl ≤ now - r.join_date)) := by
  induction rows with
  | nil => intro db st att n; simp [checkLoop]
  | cons r rest ih =>
    intro db st att n
    dsimp only [checkLoop]
    by_cases hc : tl ≤ now - r.join_date
    · rw [if_pos hc, ih]
      simp [hc]
    · rw [if_neg hc, ih]
      simp [hc]

/-- C2: for every member row read by a sweep, the sweep attempts expulsion
of that row iff its dwell `now - join_date` is at least the configured
time limit; rows with dwell strictly below the limit are never handed to
the executor, independent of which chat the rows belong to. -/
theorem sweep_attempts_iff (now tl : ℚ) (oracle : MemberRow → PlatformOutcome)
    (edate : MemberRow → ℚ) (db : DB) (st : BotStatus) (r : MemberRow)
    (h : r ∈ db.members) :
    r ∈ (check_old_members_async now tl oracle edate db st).attempted
      ↔ tl ≤ now - r.join_date := by
  dsimp only [check_old_members_async]
  rw [checkLoop_attempted]
  simp only [List.nil_append, List.mem_filter, decide_eq_true_eq]
  exact ⟨fun hx => hx.2, fun hx => ⟨h, hx⟩⟩

/-- Platform outcome in which every call goes through. -/
def allOk : PlatformOutcome := ⟨some true, true, true, true⟩

/-- Platform outcome in which `ban_chat_member` raises. -/
def banFail : PlatformOutcome := ⟨some true, false, true, true⟩

/-- Concrete member used for the sweep witness. -/
def c2Row : MemberRow := ⟨1, 9, 0, none, "a"⟩

/-- Witness for `sweep_attempts_iff`: a member who joined at t=0 under a
120s limit is attempted by a sweep at t=130. -/
theorem sweep_attempts_iff_witness :
    c2Row ∈ (DB.mk [c2Row] []).members
    ∧ (c2Row ∈ (check_old_members_async 130 120 (fun _ => allOk)
          (fun _ => 135) ⟨[c2Row], []⟩ initialBotStatus).attempted
        ↔ (120 : ℚ) ≤ 130 - c2Row.join_date) :=
  ⟨List.mem_singleton.mpr rfl,
   sweep_attempts_iff 130 120 (fun _ => allOk) (fun _ => 135)
     ⟨[c2Row], []⟩ initialBotStatus c2Row (List.mem_singleton.mpr rfl)⟩

/-- When the ban or unban step raises (and the permission pre-check did
not already bail out), the call ends in the `except` clause: the status
only gains one error entry. -/
theorem expel_failure_st_eq (p : PlatformOutcome) (ed : ℚ) (u c : Int)
    (tl : ℚ) (un : Option String) (fn : String) (tig : ℚ) (db : DB)
    (st : BotStatus) (hperm : ¬ p.perm_check = some false)
    (hfailb : expelSucceeds p = false) :
    (expel_old_user p ed u c tl un fn tig db st).st
      = appendError st (expelErrorMsg u) := by
  rw [expel_old_user_eq, hfailb]
  simp only [Bool.false_eq_true, if_false]
  rw [if_neg hperm]
  split <;> rfl

/-- C5: a call to `expel_old_user` whose platform remove or unban step
fails returns False without raising, leaves both tables (in particular
the member's row) untouched and `total_expelled` unincremented, records
one error, and a later retry whose platform calls succeed appends exactly
one ExpulsionRecord over the original table. -/
theorem expel_failure_then_retry (p q : PlatformOutcome) (ed1 ed2 : ℚ)
    (u c : Int) (tl : ℚ) (un : Option String) (fn : String)
    (tig1 tig2 : ℚ) (db : DB) (st : BotStatus)
    (hperm : ¬ p.perm_check = some false)
    (hfail : p.ban_ok = false ∨ p.unban_ok = false)
    (hq : expelSucceeds q = true) :
    (expel_old_user p ed1 u c tl un fn tig1 db st).success = false
    ∧ (expel_old_user p ed1 u c tl un fn tig1 db st).db = db
    ∧ (expel_old_user p ed1 u c tl un fn tig1 db st).st.total_expelled
        = st.total_expelled
    ∧ (expel_old_user p ed1 u c tl un fn tig1 db st).st.errors
        = st.errors ++ [expelErrorMsg u]
    ∧ (expel_old_user q ed2 u c tl un fn tig2
          (expel_old_user p ed1 u c tl un fn tig1 db st).db
          (expel_old_user p ed1 u c tl un fn tig1 db st).st).db.expulsions
        = db.expulsions ++ [⟨u, c, un, fn, ed2, pyInt tig2⟩] := by
  have hfailb : expelSucceeds p = false := by
    unfold expelSucceeds
    rcases hfail with h | h <;> simp [h]
  have hdb := expel_failure_db p ed1 u c tl un fn tig1 db st hfailb
  have hst := expel_failure_st_eq p ed1 u c tl un fn tig1 db st hperm hfailb
  refine ⟨?_, hdb, ?_, ?_, ?_⟩
  · rw [expel_success_eq, hfailb]
  · rw [hst]; rfl
  · rw [hst]; rfl
  · rw [expel_expulsions_eq, hq, if_pos rfl, hdb]

/-- Witness for `expel_failure_then_retry`: a failed ban at one attempt,
then a clean retry, on a one-member store. -/
theorem expel_failure_then_retry_witness :
    (expel_old_user banFail 130 1 9 120 none "a" 130
        ⟨[c2Row], []⟩ initialBotStatus).success = false
    ∧ (expel_old_user banFail 130 1 9 120 none "a" 130
        ⟨[c2Row], []⟩ initialBotStatus).db = ⟨[c2Row], []⟩
    ∧ (expel_old_user banFail 130 1 9 120 none "a" 130
        ⟨[c2Row], []⟩ initialBotStatus).st.total_expelled
        = initialBotStatus.total_expelled
    ∧ (expel_old_user banFail 130 1 9 120 none "a" 130
        ⟨[c2Row], []⟩ initialBotStatus).st.errors
        = initialBotStatus.errors ++ [expelErrorMsg 1]
    ∧ (expel_old_user allOk 260 1 9 120 none "a" 260
          (expel_old_user banFail 130 1 9 120 none "a" 130
            ⟨[c2Row], []⟩ initialBotStatus).db
          (expel_old_user banFail 130 1 9 120 none "a" 130
            ⟨[c2Row], []⟩ initialBotStatus).st).db.expulsions
        = ([] : List ExpulsionRow) ++ [⟨1, 9, none, "a", 260, pyInt 260⟩] :=
  expel_failure_then_retry banFail allOk 130 260 1 9 120 none "a" 130 260
    ⟨[c2Row], []⟩ initialBotStatus (by decide) (Or.inl rfl) (by decide)

/-- Concrete member for the double-expel scenario. -/
def c6Row : MemberRow := ⟨1, 9, 0, none, "a"⟩

/-- First expel call: all platform steps succeed, the member is removed. -/
def c6First : ExpelResult :=
  expel_old_user allOk 130 1 9 120 none "a" 130 ⟨[c6Row], []⟩ initialBotStatus

/-- Second expel call for the same, already-removed member, whose
platform remove and unban again succeed (Telegram accepts banning a user
who is no longer in the chat). -/
def c6Second : ExpelResult :=
  expel_old_user allOk 200 1 9 120 none "a" 200 c6First.db c6First.st

/-- C6 counterexample: after a successful expulsion the member's row is
gone, yet a second `expel_old_user` call for the same member whose
platform calls succeed appends a second ExpulsionRecord — the table then
holds two records for the key, refuting "does not append a second
ExpulsionRecord beyond the one written by the first successful call". -/
theorem expel_twice_duplicates_record :
    containsKey c6First.db.members 1 9 = false
    ∧ c6First.db.expulsions.length = 1
    ∧ c6Second.db.expulsions.length = 2
    ∧ ¬ (c6Second.db.expulsions.length ≤ 1) := by decide

/-- C6 amended: calling `expel_old_user` again for a member already
removed never raises past the function boundary (every outcome is a
returned boolean), and no second ExpulsionRecord is appended whenever the
second call's platform remove or unban step fails or its permission
pre-check bails out; only when the platform calls all succeed again does
the code append another record. -/
theorem expel_second_call_no_duplicate_on_failure (p : PlatformOutcome)
    (ed : ℚ) (u c : Int) (tl : ℚ) (un : Option String) (fn : String)
    (tig : ℚ) (db : DB) (st : BotStatus)
    (habsent : containsKey db.members u c = false)
    (hfail : expelSucceeds p = false) :
    (expel_old_user p ed u c tl un fn tig db st).success = false
    ∧ (expel_old_user p ed u c tl un fn tig db st).db.expulsions
        = db.expulsions := by
  constructor
  · rw [expel_success_eq, hfail]
  · rw [expel_expulsions_eq, hfail]
    simp

/-- Witness for `expel_second_call_no_duplicate_on_failure`: retrying the
already-expelled member of `c6First` with a failing ban appends nothing. -/
theorem expel_second_call_no_duplicate_on_failure_witness :
    (expel_old_user banFail 200 1 9 120 none "a" 200
        c6First.db c6First.st).success = false
    ∧ (expel_old_user banFail 200 1 9 120 none "a" 200
        c6First.db c6First.st).db.expulsions = c6First.db.expulsions :=
  expel_second_call_no_duplicate_on_failure banFail 200 1 9 120 none "a" 200
    c6First.db c6First.st (by decide) (by decide)

/-- Is a platform call one of the remove/unban pair? -/
def isKickCall : PlatformCall → Bool
  | PlatformCall.banChatMember _ _ => true
  | PlatformCall.unbanChatMember _ _ => true
  | _ => false

/-- C7: every successful `expel_old_user` call issues, among its platform
calls, exactly `ban_chat_member` followed by `unban_chat_member` for the
same (chat_id, user_id), in that order; the two are adjacent in the call
trace and no other remove/unban call is issued, so on the success path a
remove is always followed by its unban. -/
theorem expel_remove_unban_sequence (p : PlatformOutcome) (ed : ℚ)
    (u c : Int) (tl : ℚ) (un : Option String) (fn : String) (tig : ℚ)
    (db : DB) (st : BotStatus)
    (h : (expel_old_user p ed u c tl un fn tig db st).success = true) :
    (expel_old_user p ed u c tl un fn tig db st).trace.filter isKickCall
      = [PlatformCall.banChatMember c u, PlatformCall.unbanChatMember c u]
    ∧ ∃ pre post,
        (expel_old_user p ed u c tl un fn tig db st).trace
          = pre ++ (PlatformCall.banChatMember c u
              :: PlatformCall.unbanChatMember c u :: post)
        ∧ pre.filter isKickCall = [] ∧ post.filter isKickCall = [] := by
  rw [expel_success_eq] at h
  rw [expel_old_user_eq, if_pos h]
  cases hadm : st.admin_notified
  · refine ⟨by simp [isKickCall], [PlatformCall.getChatMember c], [], ?_, ?_, ?_⟩ <;>
      simp [isKickCall]
  · refine ⟨by simp [isKickCall],
      [PlatformCall.getChatMember c], [PlatformCall.sendMessage ADMIN_CHAT_ID],
      ?_, ?_, ?_⟩ <;> simp [isKickCall]

/-- Witness for `expel_remove_unban_sequence` at a concrete successful
expulsion. -/
theorem expel_remove_unban_sequence_witness :
    (expel_old_user allOk 130 1 9 120 none "a" 130
        ⟨[c2Row], []⟩ initialBotStatus).trace.filter isKickCall
      = [PlatformCall.banChatMember 9 1, PlatformCall.unbanChatMember 9 1]
    ∧ ∃ pre post,
        (expel_old_user allOk 130 1 9 120 none "a" 130
            ⟨[c2Row], []⟩ initialBotStatus).trace
          = pre ++ (PlatformCall.banChatMember 9 1
              :: PlatformCall.unbanChatMember 9 1 :: post)
        ∧ pre.filter isKickCall = [] ∧ post.filter isKickCall = [] :=
  expel_remove_unban_sequence allOk 130 1 9 120 none "a" 130
    ⟨[c2Row], []⟩ initialBotStatus (by decide)

/-- Concrete member for the dwell-seconds scenario: joined at t = 0. -/
def c8Row : MemberRow := ⟨7, 9, 0, none, "x"⟩

/-- A sweep whose `now` is 130 while the expulsion's `expelled_date` is
captured later, at 135 (`datetime.now()` is called again inside
`expel_old_user`, after the platform round-trips). -/
def c8Sweep : SweepResult :=
  check_old_members_async 130 120 (fun _ => allOk) (fun _ => 135)
    ⟨[c8Row], []⟩ initialBotStatus

/-- Evaluation of the concrete sweep `c8Sweep`: it writes exactly one
record, whose dwell field is 130 and whose expelled instant is 135. -/
theorem c8Sweep_expulsions :
    c8Sweep.db.expulsions = [⟨7, 9, none, "x", 135, 130⟩] := by
  have hsub : (130 : ℚ) - c8Row.join_date = 130 := by norm_num [c8Row]
  have hc : (120 : ℚ) ≤ 130 - c8Row.join_date := by rw [hsub]; norm_num
  have hpy : pyInt 130 = 130 := by decide
  dsimp only [c8Sweep, check_old_members_async, checkLoop]
  rw [if_pos hc]
  dsimp only [checkLoop]
  rw [hsub, expel_expulsions_eq]
  simp [expelSucceeds, allOk, hpy, c8Row]

/-- C8 counterexample: the ExpulsionRecord written by this sweep has
`time_in_group_seconds = 130` (measured against the sweep-start instant)
while `expelled_date - join_date = 135`, so `dwell_seconds` is not the
elapsed time between `join_timestamp` and the record's `expelled_at`. -/
theorem dwell_not_elapsed_to_expelled_at :
    c8Sweep.db.expulsions = [⟨7, 9, none, "x", 135, 130⟩]
    ∧ ∀ rec ∈ c8Sweep.db.expulsions,
        ¬ ((rec.time_in_group_seconds : ℚ)
            = rec.expelled_date - c8Row.join_date) := by
  refine ⟨c8Sweep_expulsions, ?_⟩
  rw [c8Sweep_expulsions]
  intro rec hrec
  obtain rfl := List.mem_singleton.mp hrec
  norm_num [c8Row]

/-- Every record present after the sweep loop was already present or was
produced by expelling one of the scanned rows, with `time_in_group`
computed from the loop's `now` and the limit check passed. -/
theorem checkLoop_expulsions_mem (now tl : ℚ)
    (oracle : MemberRow → PlatformOutcome) (edate : MemberRow → ℚ)
    (rows : List MemberRow) :
    ∀ db st att n rec,
      rec ∈ (checkLoop now tl oracle edate rows db st att n).db.expulsions →
      rec ∈ db.expulsions ∨
        ∃ r, r ∈ rows
          ∧ rec.time_in_group_seconds = pyInt (now - r.join_date)
          ∧ rec.expelled_date = edate r
          ∧ tl ≤ now - r.join_date := by
  induction rows with
  | nil => intro db st att n rec h; exact Or.inl h
  | cons r rest ih =>
    intro db st att n rec h
    dsimp only [checkLoop] at h
    by_cases hc : tl ≤ now - r.join_date
    · rw [if_pos hc] at h
      rcases ih _ _ _ _ _ h with h1 | ⟨r', hr', h2⟩
      · rw [expel_expulsions_eq] at h1
        by_cases hs : expelSucceeds (oracle r) = true
        · rw [if_pos hs] at h1
          rcases List.mem_append.mp h1 with h2 | h2
          · exact Or.inl h2
          · obtain rfl := List.mem_singleton.mp h2
            exact Or.inr ⟨r, List.mem_cons_self r rest, rfl, rfl, hc⟩
        · rw [if_neg hs] at h1
          exact Or.inl h1
      · exact Or.inr ⟨r', List.mem_cons_of_mem r hr', h2⟩
    · rw [if_neg hc] at h
      rcases ih _ _ _ _ _ h with h1 | ⟨r', hr', h2⟩
      · exact Or.inl h1
      · exact Or.inr ⟨r', List.mem_cons_of_mem r hr', h2⟩

/-- C8 amended: every ExpulsionRecord a sweep appends belongs to one of
the scanned member rows; its `time_in_group_seconds` is the truncation
toward zero of `now - join_date` where `now` is the instant captured once
at sweep start (not the record's own `expelled_date`, which is captured
later inside the executor), and it is non-negative whenever the
configured time limit is non-negative. -/
theorem dwell_seconds_from_sweep_instant (now tl : ℚ)
    (oracle : MemberRow → PlatformOutcome) (edate : MemberRow → ℚ)
    (db : DB) (st : BotStatus) (rec : ExpulsionRow)
    (h : rec ∈ (check_old_members_async now tl oracle edate db st).db.expulsions) :
    rec ∈ db.expulsions ∨
      ∃ r, r ∈ db.members
        ∧ rec.time_in_group_seconds = pyInt (now - r.join_date)
        ∧ rec.expelled_date = edate r
        ∧ tl ≤ now - r.join_date
        ∧ (0 ≤ tl → 0 ≤ rec.time_in_group_seconds) := by
  dsimp only [check_old_members_async] at h
  rcases checkLoop_expulsions_mem now tl oracle edate db.members _ _ _ _ _ h
    with h1 | ⟨r, hr, h2, h3, h4⟩
  · exact Or.inl h1
  · right
    refine ⟨r, hr, h2, h3, h4, fun htl => ?_⟩
    rw [h2]
    have hx : 0 ≤ now - r.join_date := le_trans htl h4
    unfold pyInt
    rw [if_pos hx]
    exact Rat.le_floor.mpr (by exact_mod_cast hx)

/-- Witness for `dwell_seconds_from_sweep_instant` at the concrete sweep
of `c8Sweep`. -/
theorem dwell_seconds_from_sweep_instant_witness :
    (⟨7, 9, none, "x", 135, 130⟩ : ExpulsionRow) ∈ c8Sweep.db.expulsions
    ∧ ((⟨7, 9, none, "x", 135, 130⟩ : ExpulsionRow)
          ∈ (DB.mk [c8Row] []).expulsions
        ∨ ∃ r, r ∈ (DB.mk [c8Row] []).members
            ∧ (⟨7, 9, none, "x", 135, 130⟩ : ExpulsionRow).time_in_group_seconds
                = pyInt (130 - r.join_date)
            ∧ (⟨7, 9, none, "x", 135, 130⟩ : ExpulsionRow).expelled_date
                = (fun _ => (135 : ℚ)) r
            ∧ (120 : ℚ) ≤ 130 - r.join_date
            ∧ ((0 : ℚ) ≤ 120 →
                0 ≤ (⟨7, 9, none, "x", 135, 130⟩ : ExpulsionRow).time_in_group_seconds)) :=
  ⟨by rw [c8Sweep_expulsions]; exact List.mem_singleton.mpr rfl,
   dwell_seconds_from_sweep_instant 130 120 (fun _ => allOk) (fun _ => 135)
     ⟨[c8Row], []⟩ initialBotStatus ⟨7, 9, none, "x", 135, 130⟩
     (by rw [show (check_old_members_async 130 120 (fun _ => allOk)
         (fun _ => 135) ⟨[c8Row], []⟩ initialBotStatus).db.expulsions
           = [⟨7, 9, none, "x", 135, 130⟩] from c8Sweep_expulsions]
         exact List.mem_singleton.mpr rfl)⟩

/-- Eleven consecutive executor failures recorded into `bot_status`. -/
def elevenErrors : BotStatus :=
  (List.range 11).foldl
    (fun st i =>
      (expel_old_user banFail 0 (Int.ofNat i) 9 120 none "x" 200
        ⟨[], []⟩ st).st)
    initialBotStatus

/-- C9 counterexample: after eleven executor errors the stored list
`bot_status["errors"]` holds eleven entries — the code appends without
ever trimming, so the stored collection is not bounded by 10. -/
theorem errors_exceed_ten :
    elevenErrors.errors.length = 11
    ∧ ¬ (elevenErrors.errors.length ≤ 10) := by decide

/-- C9 amended: only the view exposed by the `/status` route is bounded:
it returns the suffix `errors[-10:]` of the stored list, hence at most 10
entries and always the newest ones; the stored list itself grows without
bound. -/
theorem status_errors_view_bounded (st : BotStatus) :
    (status_errors st).length ≤ 10
    ∧ status_errors st <:+ st.errors := by
  constructor
  · unfold status_errors
    rw [List.length_drop]
    omega
  · exact List.drop_suffix _ _

/-- C10: a /start command arms `admin_notified` exactly when the sender
is the configured admin id — the flag afterwards reads true iff the
sender was the admin or it was already true — and every other
`bot_status` field is left unchanged; a /start from any non-admin sender
leaves the whole state unchanged. -/
theorem start_command_admin_flag (a uid : Int) (st : BotStatus) :
    ((start_command a uid st).admin_notified
        = (uid == a || st.admin_notified))
    ∧ (uid = a ∨ start_command a uid st = st)
    ∧ (start_command a uid st).running = st.running
    ∧ (start_command a uid st).last_check = st.last_check
    ∧ (start_command a uid st).members_count = st.members_count
    ∧ (start_command a uid st).errors = st.errors
    ∧ (start_command a uid st).webhook_set = st.webhook_set
    ∧ (start_command a uid st).last_webhook_update = st.last_webhook_update
    ∧ (start_command a uid st).next_check = st.next_check
    ∧ (start_command a uid st).auto_check_running = st.auto_check_running
    ∧ (start_command a uid st).total_expelled = st.total_expelled
    ∧ (start_command a uid st).webhook_events_received
        = st.webhook_events_received
    ∧ (start_command a uid st).members_detected = st.members_detected := by
  unfold start_command
  by_cases h : uid = a
  · subst h
    simp
  · simp [h]

end Bot14
